import Mathlib

/-!
Verification of src/homework/extract_specific_columns.py.

The script is a single linear procedure: ensure the output directory exists,
read a fixed-path CSV through pandas restricted to nine named columns with
declared dtypes, and write the selection back out with no index column and
floats formatted as %.6f, returning a boolean and exiting 0/1.

The embedding below models:
  * the filesystem as an association of paths to file contents plus a set of
    directories (console output is collected as a list of printed strings);
  * CSV files as raw strings, split structurally on newlines and commas
    (cells are assumed quote-free, which covers every input the claims use;
    pandas quoting rules are out of scope);
  * the pandas dtypes exactly where the claims depend on them: int32 cells
    must parse as (bounded) integer literals, float32 cells are parsed as
    exact decimals and rounded to 24-bit binary significands with
    round-half-even, matching IEEE-754 binary32 for normal values (subnormal
    and overflowing magnitudes, far outside any claim, keep full precision
    here), and %.6f formatting rounds the exact binary value half-even to
    six fractional digits, as CPython does;
  * diagnostics: the prints that the claims mention (the file-not-found
    message, the processing-error message, the read/write progress and the
    success line) are modelled verbatim; purely informational prints that
    interrogate interpreter internals (memory usage in MB, dtype listing,
    the 3-row preview) are abstracted away, as no claim concerns them.

All arithmetic is on Nat/Int so that every definition evaluates by kernel
reduction on concrete inputs.
-/

namespace Extract

/-- A filesystem path, as its list of components (the parts of a
Python pathlib.Path such as files/output/specific-columns.csv). -/
abbrev Path := List String

/-- Model of the filesystem: an association list from paths to file
contents (earlier entries shadow later ones) plus the set of existing
directories. -/
structure FS where
  files : List (Path × String)
  dirs : List Path
deriving DecidableEq

/-- First-match lookup of a file path in the association list. -/
def lookupFile : List (Path × String) → Path → Option String
  | [], _ => none
  | (q, c) :: t, p => if q = p then some c else lookupFile t p

/-- Does a regular file exist at this path? -/
def isFile (fs : FS) (p : Path) : Bool := (lookupFile fs.files p).isSome

/-- Does a directory exist at this path? -/
def isDir (fs : FS) (p : Path) : Bool := decide (p ∈ fs.dirs)

/-- Create or overwrite the file at path p. -/
def writeFile (fs : FS) (p : Path) (c : String) : FS := ⟨(p, c) :: fs.files, fs.dirs⟩

/-- Join a list of strings with a separator (used for paths and CSV rows). -/
def joinSep (sep : String) : List String → String
  | [] => ""
  | [s] => s
  | s :: t => s ++ sep ++ joinSep sep t

/-- Render a path the way str(Path(...)) does on POSIX. -/
def renderPath (p : Path) : String := joinSep "/" p

/-- The nonempty ancestor chain of a path, shortest first:
ancestors [a, b] = [[a], [a, b]]. -/
def ancestors (p : Path) : List Path :=
  (List.range p.length).map fun i => p.take (i + 1)

/-- Create each directory of the list in turn, as
Path.mkdir(parents=True, exist_ok=True) does for the ancestor chain: an
existing directory is fine, but a regular file in the way raises. -/
def mkdirList (fs : FS) : List Path → Except String FS
  | [] => .ok fs
  | p :: ps =>
    if isFile fs p then .error ("FileExistsError: " ++ renderPath p)
    else mkdirList (if isDir fs p then fs else ⟨fs.files, p :: fs.dirs⟩) ps

/-- Model of output_file.parent.mkdir(parents=True, exist_ok=True)
(line 28 of the source), applied to a directory path. -/
def mkdirParents (fs : FS) (p : Path) : Except String FS := mkdirList fs (ancestors p)

/-- Split a character list at every occurrence of the separator. -/
def splitChAux (sep : Char) : List Char → List Char → List (List Char)
  | [], acc => [acc.reverse]
  | c :: cs, acc =>
    if c = sep then acc.reverse :: splitChAux sep cs []
    else splitChAux sep cs (c :: acc)

/-- splitCh sep l is the list of sep-separated chunks of l. -/
def splitCh (sep : Char) (l : List Char) : List (List Char) := splitChAux sep l []

/-- Split one CSV line into its cells (cells are assumed quote-free). -/
def parseLine (s : String) : List String := (splitCh ',' s.data).map fun l => ⟨l⟩

/-- The lines of a CSV file; blank lines are skipped, as the pandas reader
does by default. -/
def csvLines (s : String) : List String :=
  ((splitCh '\n' s.data).map fun l => (⟨l⟩ : String)).filter fun l => decide (l ≠ "")

/-- Numeric value of a decimal digit character. -/
def digitVal (c : Char) : Option Nat := if c.isDigit then some (c.toNat - 48) else none

/-- Accumulate a digit string into a number; fails on a non-digit. -/
def digitsToNatAux : List Char → Nat → Option Nat
  | [], acc => some acc
  | c :: cs, acc =>
    match digitVal c with
    | some d => digitsToNatAux cs (acc * 10 + d)
    | none => none

/-- Parse a nonempty all-digit string. -/
def parseNatDigits : List Char → Option Nat
  | [] => none
  | c :: cs => digitsToNatAux (c :: cs) 0

/-- Parse an optionally signed integer literal, the only shape the pandas
C parser accepts for an integer dtype (in particular the empty cell and
any non-integer text fail). -/
def parseIntChars : List Char → Option Int
  | '-' :: rest => (parseNatDigits rest).map fun n => -(n : Int)
  | '+' :: rest => (parseNatDigits rest).map fun n => (n : Int)
  | l => (parseNatDigits l).map fun n => (n : Int)

/-- An exact decimal value: plus or minus num / 10 ^ scale. -/
structure Dec where
  neg : Bool
  num : Nat
  scale : Nat
deriving DecidableEq

/-- Parse the unsigned body of a decimal literal: digits, optionally with
one decimal point; "1." and ".5" are accepted as pandas accepts them, a
bare "." or any other text is not. (Exponent forms such as 1e2, which no
claim uses, are outside this model.) -/
def parseUnsignedDec (l : List Char) : Option (Nat × Nat) :=
  match splitCh '.' l with
  | [ip] => (parseNatDigits ip).map fun n => (n, 0)
  | [ip, fp] =>
    if ip.isEmpty && fp.isEmpty then none
    else
      match digitsToNatAux (ip ++ fp) 0 with
      | some n => some (n, fp.length)
      | none => none
  | _ => none

/-- Parse an optionally signed decimal literal into an exact decimal. -/
def parseDecChars : List Char → Option Dec
  | '-' :: rest => (parseUnsignedDec rest).map fun p => ⟨true, p.1, p.2⟩
  | '+' :: rest => (parseUnsignedDec rest).map fun p => ⟨false, p.1, p.2⟩
  | l => (parseUnsignedDec l).map fun p => ⟨false, p.1, p.2⟩

/-- An IEEE-754 binary32 value in exact form: plus or minus m * 2 ^ (e - 23),
with m the 24-bit significand and e the binary exponent of the value. -/
structure F32 where
  neg : Bool
  m : Nat
  e : Int
deriving DecidableEq

/-- Largest k (up to the fuel) with b * 2 ^ k ≤ a, for b ≤ a. -/
def log2Div : Nat → Nat → Nat → Nat
  | 0, _, _ => 0
  | f + 1, a, b => if 2 * b ≤ a then 1 + log2Div f a (2 * b) else 0

/-- Smallest k (up to the fuel) with a * 2 ^ k ≥ b, for 0 < a < b. -/
def clog2Div : Nat → Nat → Nat → Nat
  | 0, _, _ => 0
  | f + 1, a, b => if b ≤ a then 0 else 1 + clog2Div f (2 * a) b

/-- Round the exact rational a / b (with b > 0) to the nearest integer,
ties to even. -/
def rneNat (a b : Nat) : Nat :=
  let q := a / b
  let r := a % b
  if 2 * r < b then q
  else if b < 2 * r then q + 1
  else if q % 2 = 0 then q else q + 1

/-- Round an exact decimal to the nearest binary32 value (round half to
even on a 24-bit significand), the conversion pandas performs for the
float32 dtype. Exact for all normal values; subnormal and overflowing
magnitudes, which no claim exercises, keep a full significand here
instead of flushing or producing an infinity. -/
def roundF32 (d : Dec) : F32 :=
  if d.num = 0 then ⟨d.neg, 0, 23⟩
  else
    let b := 10 ^ d.scale
    let e : Int :=
      if b ≤ d.num then (log2Div d.num d.num b : Int)
      else -(clog2Div b d.num b : Int)
    let m :=
      if e ≤ 23 then rneNat (d.num * 2 ^ (23 - e).toNat) b
      else rneNat d.num (b * 2 ^ (e - 23).toNat)
    ⟨d.neg, m, e⟩

/-- The decimal digit character for a value below 10. -/
def digitCh (m : Nat) : Char := Char.ofNat (48 + m)

/-- Exactly k decimal digits of n (mod 10 ^ k), most significant first. -/
def fixedDigits : Nat → Nat → List Char
  | 0, _ => []
  | k + 1, n => fixedDigits k (n / 10) ++ [digitCh (n % 10)]

/-- The magnitude of a binary32 number times 10 ^ 6, rounded half-even to
an integer (the digits %.6f prints). -/
def F32.n6 (f : F32) : Nat :=
  if f.e ≤ 23 then rneNat (f.m * 1000000) (2 ^ (23 - f.e).toNat)
  else f.m * 2 ^ (f.e - 23).toNat * 1000000

/-- Format a binary32 value as %.6f does: the exact binary value is
rounded half-even to six fractional digits. -/
def renderF32 (f : F32) : String :=
  (if f.neg then "-" else "") ++
    toString (f.n6 / 1000000) ++ "." ++ (⟨fixedDigits 6 (f.n6 % 1000000)⟩ : String)

/-- A cell value held in the in-memory table: an int32, a float32 (none
standing for NaN, as a float column represents a missing value), or text
(the string and category dtypes both hold the cell text). -/
inductive Value
  | intV (n : Int)
  | floatV (x : Option F32)
  | strV (s : String)
deriving DecidableEq

/-- How to_csv renders one cell: integers as their literal, floats through
the %.6f float_format (NaN as the empty field), text verbatim. -/
def renderValue : Value → String
  | .intV n => toString n
  | .floatV none => ""
  | .floatV (some f) => renderF32 f
  | .strV s => s

/-- The pandas dtypes the script declares. -/
inductive Dtype
  | int32
  | float32
  | string
  | category
deriving DecidableEq

/-- The columns_to_extract list of the source (lines 31-41), in its fixed
order. -/
def columns_to_extract : List String :=
  ["driverId", "truckId", "eventTime", "eventType", "longitude", "latitude",
   "driverName", "routeName", "eventDate"]

/-- The dtype_mapping dict of the source (lines 45-55). -/
def dtype_mapping : List (String × Dtype) :=
  [("driverId", .int32), ("truckId", .int32), ("eventTime", .string),
   ("eventType", .category), ("longitude", .float32), ("latitude", .float32),
   ("driverName", .string), ("routeName", .string), ("eventDate", .string)]

/-- Look a column up in the dtype mapping (every selected column is in the
mapping, so the default is never reached). -/
def lookupDtype : List (String × Dtype) → String → Dtype
  | [], _ => .string
  | (k, v) :: t, c => if k = c then v else lookupDtype t c

/-- Parse one cell under its declared dtype, as the pandas C reader does:
an int32 cell must be an in-range integer literal (an empty or non-integer
cell raises), a float32 cell may be empty (NaN) or a decimal literal, and
the text dtypes take the cell as is. -/
def parseCell (dt : Dtype) (cell : String) : Except String Value :=
  match dt with
  | .int32 =>
    match parseIntChars cell.data with
    | none => .error ("invalid literal for int32 column: " ++ cell)
    | some n =>
      if (-2147483648 : Int) ≤ n ∧ n < 2147483648 then .ok (.intV n)
      else .error ("int32 overflow: " ++ cell)
  | .float32 =>
    if cell = "" then .ok (.floatV none)
    else
      match parseDecChars cell.data with
      | none => .error ("could not convert string to float32: " ++ cell)
      | some d => .ok (.floatV (some (roundF32 d)))
  | .string => .ok (.strV cell)
  | .category => .ok (.strV cell)

/-- Effectful map over a list: the first failure aborts the traversal. -/
def mapE (f : α → Except String β) : List α → Except String (List β)
  | [] => .ok []
  | a :: l =>
    match f a with
    | .error e => .error e
    | .ok b =>
      match mapE f l with
      | .error e => .error e
      | .ok bs => .ok (b :: bs)

/-- The columns usecols selects, with their positions, in the order they
appear in the file header — pandas keeps file order and ignores the order
of the usecols list itself. -/
def selectedCols (hdr : List String) : List (Nat × String) :=
  hdr.enum.filter fun p => decide (p.2 ∈ columns_to_extract)

/-- Read one data row: a row with more fields than the header is a
tokenizing error; a short row is padded with empty cells (which an int32
column then rejects); each selected cell is parsed under its dtype. -/
def readRow (hdr : List String) (sel : List (Nat × String)) (line : String) :
    Except String (List Value) :=
  let cells := parseLine line
  if hdr.length < cells.length then
    .error ("Error tokenizing data: expected " ++ toString hdr.length ++
      " fields, saw " ++ toString cells.length)
  else
    mapE (fun p => parseCell (lookupDtype dtype_mapping p.2) (cells.getD p.1 "")) sel

/-- The in-memory table: selected column names (file order) and the typed
rows. -/
structure Frame where
  cols : List String
  rows : List (List Value)
deriving DecidableEq

/-- Model of pd.read_csv(input_file, usecols=columns_to_extract,
dtype=dtype_mapping, engine="c") applied to the file contents (source
lines 58-63): an empty file or a header missing one of the nine columns
raises, otherwise every data row is parsed under the declared dtypes. -/
def read_csv (content : String) : Except String Frame :=
  match csvLines content with
  | [] => .error "No columns to parse from file"
  | hdrLine :: dataLines =>
    let hdr := parseLine hdrLine
    if columns_to_extract.all fun c => decide (c ∈ hdr) then
      match mapE (readRow hdr (selectedCols hdr)) dataLines with
      | .error e => .error e
      | .ok rows => .ok ⟨(selectedCols hdr).map Prod.snd, rows⟩
    else .error "Usecols do not match columns, columns expected but not found"

/-- One rendered output row. -/
def renderRow (r : List Value) : String := joinSep "," (r.map renderValue)

/-- Concatenate lines, terminating every line (the header and each row)
with a newline, as to_csv does. -/
def renderLines : List String → String
  | [] => ""
  | l :: ls => l ++ "\n" ++ renderLines ls

/-- Model of df.to_csv(output_file, index=False, float_format="%.6f")
(source lines 75-79): the header then the rows, no index column. -/
def to_csv (fr : Frame) : String :=
  renderLines (joinSep "," fr.cols :: fr.rows.map renderRow)

/-- The fixed input path of the source (line 24). -/
def input_file : Path := ["files", "input", "truck_event_text_partition.csv"]

/-- The fixed output path of the source (line 25). -/
def output_file : Path := ["files", "output", "specific-columns.csv"]

/-- Print of line 57 of the source. -/
def msgReading : String := "Leyendo archivo de entrada..."

/-- Print of line 74 of the source. -/
def msgSaving : String := "Guardando archivo de salida..."

/-- Print of line 81 of the source. -/
def msgSaved : String := "✅ Archivo guardado exitosamente: " ++ renderPath output_file

/-- Print of line 91 of the source, on FileNotFoundError: the message
carries the input path. -/
def msgFileNotFound : String := "❌ Error: No se encontró el archivo " ++ renderPath input_file

/-- Print of line 94 of the source, on any other exception e caught by the
try block. -/
def msgProcessing (e : String) : String := "❌ Error procesando datos: " ++ e

/-- What one call of extract_specific_columns that returns (rather than
raises) produces: the boolean result, the console output, and the
filesystem afterwards. -/
structure RunResult where
  success : Bool
  prints : List String
  fs : FS
deriving DecidableEq

/-- Model of extract_specific_columns() (source lines 12-95). The mkdir
of line 28 runs before the try block, so its failure is an uncaught
exception (the .error case); inside the try block, a missing input file
prints the file-not-found message and returns False, any other processing
failure prints the processing-error message and returns False, and on
success the selection is written to the output path and True is returned.
Purely informational prints (memory usage, dtype listing, row preview)
are not modelled. -/
def extract_specific_columns (fs : FS) : Except String RunResult :=
  match mkdirParents fs output_file.dropLast with
  | .error e => .error e
  | .ok fs1 =>
    match lookupFile fs1.files input_file with
    | none => .ok ⟨false, [msgReading, msgFileNotFound], fs1⟩
    | some content =>
      match read_csv content with
      | .error e => .ok ⟨false, [msgReading, msgProcessing e], fs1⟩
      | .ok df =>
        .ok ⟨true, [msgReading, msgSaving, msgSaved],
          writeFile fs1 output_file (to_csv df)⟩

/-- Model of the __main__ block (source lines 98-100):
exit(0 if success else 1). An uncaught exception stays an error. -/
def main_exit (fs : FS) : Except String Nat :=
  match extract_specific_columns fs with
  | .ok r => .ok (if r.success then 0 else 1)
  | .error e => .error e

/-- Did the call return (as opposed to raising an uncaught exception)? -/
def handledRun (fs : FS) : Bool :=
  match extract_specific_columns fs with
  | .ok _ => true
  | .error _ => false

/-- The boolean the call returned (false if it raised). -/
def runOk (fs : FS) : Bool :=
  match extract_specific_columns fs with
  | .ok r => r.success
  | .error _ => false

/-- The filesystem after the call (unchanged if it raised before the model
could record the partial directory creation). -/
def runFS (fs : FS) : FS :=
  match extract_specific_columns fs with
  | .ok r => r.fs
  | .error _ => fs

/-- The console output of the call. -/
def runPrints (fs : FS) : List String :=
  match extract_specific_columns fs with
  | .ok r => r.prints
  | .error _ => []

/-- The contents of the output file after the call. -/
def runOutput (fs : FS) : Option String := lookupFile (runFS fs).files output_file

/-- The first comma-separated token of the first line of a file. -/
def firstHeaderToken (s : String) : String := (parseLine ((csvLines s).headD "")).headD ""

/-! Concrete fixtures used to instantiate the theorems. -/

/-- A well-formed input holding the example row of the specification:
the nine columns in their usual order, longitude -94.5 and latitude 39.1. -/
def goodContent : String :=
  "driverId,truckId,eventTime,eventType,longitude,latitude,driverName,routeName,eventDate\n" ++
  "10,200,2016-01-01 00:00:00,Normal,-94.5,39.1,Alice,R1,2016-01-01\n"

/-- What the script writes for goodContent (note latitude 39.1 comes out
as 39.099998: the nearest binary32 to 39.1 is 39.09999847412109375). -/
def goodOutput : String :=
  "driverId,truckId,eventTime,eventType,longitude,latitude,driverName,routeName,eventDate\n" ++
  "10,200,2016-01-01 00:00:00,Normal,-94.500000,39.099998,Alice,R1,2016-01-01\n"

/-- A fresh filesystem holding only the good input file. -/
def fsGood : FS := ⟨[(input_file, goodContent)], []⟩

/-- The same data but with the first two columns of the header (and of the
row) swapped in the input file. -/
def swapContent : String :=
  "truckId,driverId,eventTime,eventType,longitude,latitude,driverName,routeName,eventDate\n" ++
  "200,10,2016-01-01 00:00:00,Normal,-94.5,39.1,Alice,R1,2016-01-01\n"

/-- What the script writes for swapContent: the columns keep the order of
the input file, not the order of the columns_to_extract list. -/
def swapOutput : String :=
  "truckId,driverId,eventTime,eventType,longitude,latitude,driverName,routeName,eventDate\n" ++
  "200,10,2016-01-01 00:00:00,Normal,-94.500000,39.099998,Alice,R1,2016-01-01\n"

/-- A fresh filesystem holding only the column-swapped input file. -/
def fsSwap : FS := ⟨[(input_file, swapContent)], []⟩

/-- An input file lacking the required driverName column. -/
def noColContent : String :=
  "driverId,truckId,eventTime,eventType,longitude,latitude,routeName,eventDate\n" ++
  "10,200,2016-01-01 00:00:00,Normal,-94.5,39.1,R1,2016-01-01\n"

/-- A fresh filesystem holding only the column-lacking input file. -/
def fsNoCol : FS := ⟨[(input_file, noColContent)], []⟩

/-- An input file whose data row has an empty driverId cell. -/
def badIntContent : String :=
  "driverId,truckId,eventTime,eventType,longitude,latitude,driverName,routeName,eventDate\n" ++
  ",200,2016-01-01 00:00:00,Normal,-94.5,39.1,Alice,R1,2016-01-01\n"

/-- A fresh filesystem holding only the bad-integer input file. -/
def fsBadInt : FS := ⟨[(input_file, badIntContent)], []⟩

/-- A completely empty filesystem: no input file anywhere. -/
def fsEmpty : FS := ⟨[], []⟩

/-- A filesystem where a regular file occupies the path files/output that
the script needs as its output directory. -/
def fsClash : FS := ⟨[(["files", "output"], "not a directory")], [["files"]]⟩

/-- A filesystem where the parent directory files already exists but the
output directory does not, and the input file is present. -/
def fsParentOnly : FS := ⟨[(input_file, goodContent)], [["files"]]⟩

/-! Helper lemmas about the filesystem model. -/

theorem isFile_congr {fs fs2 : FS} (h : fs.files = fs2.files) (p : Path) :
    isFile fs p = isFile fs2 p := by
  unfold isFile; rw [h]

theorem lookupFile_cons_self (t : List (Path × String)) (p : Path) (c : String) :
    lookupFile ((p, c) :: t) p = some c := by
  show (if p = p then some c else lookupFile t p) = some c
  rw [if_pos rfl]

theorem lookupFile_cons_ne (t : List (Path × String)) (p q : Path) (c : String)
    (h : ¬p = q) : lookupFile ((p, c) :: t) q = lookupFile t q := by
  show (if p = q then some c else lookupFile t q) = lookupFile t q
  rw [if_neg h]

theorem isFile_writeFile_ne (fs : FS) (p q : Path) (c : String) (h : ¬p = q) :
    isFile (writeFile fs p c) q = isFile fs q := by
  unfold isFile writeFile
  rw [show (FS.mk ((p, c) :: fs.files) fs.dirs).files = (p, c) :: fs.files from rfl,
    lookupFile_cons_ne fs.files p q c h]

theorem mkdirList_files : ∀ (l : List Path) (fs fs2 : FS),
    mkdirList fs l = .ok fs2 → fs2.files = fs.files := by
  intro l
  induction l with
  | nil =>
    intro fs fs2 h
    simp only [mkdirList, Except.ok.injEq] at h
    rw [← h]
  | cons p ps ih =>
    intro fs fs2 h
    unfold mkdirList at h
    split at h
    · exact absurd h (by simp)
    · rw [ih _ _ h]
      split <;> rfl

theorem mkdirList_dirs_mono : ∀ (l : List Path) (fs fs2 : FS),
    mkdirList fs l = .ok fs2 → ∀ q, isDir fs q = true → isDir fs2 q = true := by
  intro l
  induction l with
  | nil =>
    intro fs fs2 h q hq
    simp only [mkdirList, Except.ok.injEq] at h
    rwa [← h]
  | cons p ps ih =>
    intro fs fs2 h q hq
    unfold mkdirList at h
    split at h
    · exact absurd h (by simp)
    · refine ih _ _ h q ?_
      split
      · exact hq
      · have hmem : q ∈ fs.dirs := of_decide_eq_true hq
        simp [isDir, List.mem_cons, hmem]

theorem mkdirList_mem_dirs : ∀ (l : List Path) (fs fs2 : FS),
    mkdirList fs l = .ok fs2 → ∀ q ∈ l, isDir fs2 q = true := by
  intro l
  induction l with
  | nil => intro fs fs2 _ q hq; simp at hq
  | cons p ps ih =>
    intro fs fs2 h q hq
    unfold mkdirList at h
    split at h
    · exact absurd h (by simp)
    · rcases List.mem_cons.mp hq with rfl | hq2
      · refine mkdirList_dirs_mono ps _ _ h q ?_
        split
        · assumption
        · simp [isDir, List.mem_cons]
      · exact ih _ _ h q hq2

theorem mkdirList_not_file : ∀ (l : List Path) (fs fs2 : FS),
    mkdirList fs l = .ok fs2 → ∀ q ∈ l, isFile fs q = false := by
  intro l
  induction l with
  | nil => intro fs fs2 _ q hq; simp at hq
  | cons p ps ih =>
    intro fs fs2 h q hq
    unfold mkdirList at h
    split at h
    · exact absurd h (by simp)
    · rcases List.mem_cons.mp hq with rfl | hq2
      · simp_all
      · have hstep : (if isDir fs p then fs else FS.mk fs.files (p :: fs.dirs)).files
            = fs.files := by split <;> rfl
        rw [isFile_congr hstep.symm q]
        exact ih _ _ h q hq2

theorem mkdirList_ok_of_not_file : ∀ (l : List Path) (fs : FS),
    (∀ q ∈ l, isFile fs q = false) → ∃ fs2, mkdirList fs l = .ok fs2 := by
  intro l
  induction l with
  | nil => intro fs _; exact ⟨fs, rfl⟩
  | cons p ps ih =>
    intro fs hyp
    have h1 : isFile fs p = false := hyp p (by simp)
    have hstep : (if isDir fs p then fs else FS.mk fs.files (p :: fs.dirs)).files
        = fs.files := by split <;> rfl
    obtain ⟨fs2, h2⟩ := ih (if isDir fs p then fs else FS.mk fs.files (p :: fs.dirs))
      (fun q hq => by rw [isFile_congr hstep q]; exact hyp q (List.mem_cons_of_mem _ hq))
    exact ⟨fs2, by unfold mkdirList; rw [h1]; exact h2⟩

theorem mkdirList_id : ∀ (l : List Path) (fs : FS),
    (∀ q ∈ l, isDir fs q = true ∧ isFile fs q = false) → mkdirList fs l = .ok fs := by
  intro l
  induction l with
  | nil => intro fs _; rfl
  | cons p ps ih =>
    intro fs hyp
    have hd := (hyp p (by simp)).1
    have hf := (hyp p (by simp)).2
    unfold mkdirList
    rw [hf, hd]
    exact ih fs (fun q hq => hyp q (List.mem_cons_of_mem _ hq))

/-! Helper lemmas about the effectful traversal. -/

theorem mapE_length {α β : Type} (f : α → Except String β) :
    ∀ (l : List α) (l2 : List β), mapE f l = .ok l2 → l2.length = l.length := by
  intro l
  induction l with
  | nil =>
    intro l2 h
    simp only [mapE, Except.ok.injEq] at h
    subst h
    rfl
  | cons a t ih =>
    intro l2 h
    cases hfa : f a with
    | error e =>
      simp only [mapE, hfa] at h
      exact Except.noConfusion h
    | ok b =>
      cases hmt : mapE f t with
      | error e2 =>
        simp only [mapE, hfa, hmt] at h
        exact Except.noConfusion h
      | ok bs =>
        simp only [mapE, hfa, hmt, Except.ok.injEq] at h
        rw [← h]
        simp [ih bs hmt]

theorem mapE_error_of_mem {α β : Type} (f : α → Except String β) (x : α) (e : String) :
    ∀ (l : List α), x ∈ l → f x = .error e → ∃ e2, mapE f l = .error e2 := by
  intro l
  induction l with
  | nil => intro h _; simp at h
  | cons a t ih =>
    intro hmem hfx
    rcases List.mem_cons.mp hmem with rfl | h2
    · exact ⟨e, by simp only [mapE, hfx]⟩
    · cases hfa : f a with
      | error e3 => exact ⟨e3, by simp only [mapE, hfa]⟩
      | ok b =>
        obtain ⟨e2, he2⟩ := ih h2 hfx
        exact ⟨e2, by simp only [mapE, hfa, he2]⟩

theorem enumFrom_filter_snd (P : String → Bool) :
    ∀ (l : List String) (n : Nat),
      ((List.enumFrom n l).filter fun p => P p.2).map Prod.snd = l.filter P := by
  intro l
  induction l with
  | nil => intro n; rfl
  | cons a t ih =>
    intro n
    show ((((n, a) :: List.enumFrom (n + 1) t).filter fun p => P p.2).map Prod.snd)
      = List.filter P (a :: t)
    rw [List.filter_cons, List.filter_cons]
    cases hP : P a with
    | false => simpa [hP] using ih (n + 1)
    | true => simp [hP, ih (n + 1)]

theorem selectedCols_map_snd (hdr : List String) :
    (selectedCols hdr).map Prod.snd = hdr.filter fun c => decide (c ∈ columns_to_extract) := by
  unfold selectedCols List.enum
  exact enumFrom_filter_snd (fun c => decide (c ∈ columns_to_extract)) hdr 0

/-! Helper lemmas about the fixed-width digit renderer. -/

theorem fixedDigits_length : ∀ (k n : Nat), (fixedDigits k n).length = k := by
  intro k
  induction k with
  | zero => intro n; rfl
  | succ k ih => intro n; simp [fixedDigits, ih]

theorem digitCh_isDigit (m : Nat) (h : m < 10) : (digitCh m).isDigit = true := by
  unfold digitCh
  interval_cases m <;> decide

theorem fixedDigits_isDigit : ∀ (k n : Nat), ∀ c ∈ fixedDigits k n, c.isDigit = true := by
  intro k
  induction k with
  | zero => intro n c hc; simp [fixedDigits] at hc
  | succ k ih =>
    intro n c hc
    simp only [fixedDigits, List.mem_append, List.mem_singleton] at hc
    rcases hc with hc | rfl
    · exact ih _ c hc
    · exact digitCh_isDigit _ (Nat.mod_lt _ (by norm_num))

/-! Inversion and forward-computation helpers for the run. -/

theorem extract_ok_inv (fs : FS) (r : RunResult)
    (h : extract_specific_columns fs = .ok r) :
    ∃ fs1, mkdirParents fs output_file.dropLast = .ok fs1 ∧ fs1.files = fs.files ∧
      ((lookupFile fs.files input_file = none ∧
          r = ⟨false, [msgReading, msgFileNotFound], fs1⟩) ∨
       (∃ content e, lookupFile fs.files input_file = some content ∧
          read_csv content = .error e ∧
          r = ⟨false, [msgReading, msgProcessing e], fs1⟩) ∨
       (∃ content df, lookupFile fs.files input_file = some content ∧
          read_csv content = .ok df ∧
          r = ⟨true, [msgReading, msgSaving, msgSaved],
            writeFile fs1 output_file (to_csv df)⟩)) := by
  cases hmk : mkdirParents fs output_file.dropLast with
  | error e =>
    simp only [extract_specific_columns, hmk] at h
    exact Except.noConfusion h
  | ok fs1 =>
    have hfiles : fs1.files = fs.files := mkdirList_files _ _ _ hmk
    refine ⟨fs1, rfl, hfiles, ?_⟩
    simp only [extract_specific_columns, hmk] at h
    cases hin : lookupFile fs1.files input_file with
    | none =>
      simp only [hin, Except.ok.injEq] at h
      left
      exact ⟨by rw [← hfiles]; exact hin, h.symm⟩
    | some content =>
      simp only [hin] at h
      cases hcsv : read_csv content with
      | error e =>
        simp only [hcsv, Except.ok.injEq] at h
        right; left
        exact ⟨content, e, by rw [← hfiles]; exact hin, hcsv, h.symm⟩
      | ok df =>
        simp only [hcsv, Except.ok.injEq] at h
        right; right
        exact ⟨content, df, by rw [← hfiles]; exact hin, hcsv, h.symm⟩

theorem extract_success_eq (fs fs1 : FS) (content : String) (df : Frame)
    (hmk : mkdirParents fs output_file.dropLast = .ok fs1)
    (hin : lookupFile fs1.files input_file = some content)
    (hcsv : read_csv content = .ok df) :
    extract_specific_columns fs =
      .ok ⟨true, [msgReading, msgSaving, msgSaved],
        writeFile fs1 output_file (to_csv df)⟩ := by
  simp only [extract_specific_columns, hmk, hin, hcsv]

/-! Helper lemmas about read_csv. -/

theorem read_csv_ok_inv (content : String) (df : Frame)
    (h : read_csv content = .ok df) :
    ∃ hdrLine dataLines,
      csvLines content = hdrLine :: dataLines ∧
      (columns_to_extract.all fun c => decide (c ∈ parseLine hdrLine)) = true ∧
      mapE (readRow (parseLine hdrLine) (selectedCols (parseLine hdrLine))) dataLines
        = .ok df.rows ∧
      df.cols = (selectedCols (parseLine hdrLine)).map Prod.snd := by
  cases hl : csvLines content with
  | nil =>
    simp only [read_csv, hl] at h
    exact Except.noConfusion h
  | cons hdrLine dataLines =>
    simp only [read_csv, hl] at h
    cases hall : columns_to_extract.all fun c => decide (c ∈ parseLine hdrLine) with
    | false =>
      rw [hall] at h
      simp at h
    | true =>
      rw [hall, if_pos rfl] at h
      cases hm : mapE (readRow (parseLine hdrLine) (selectedCols (parseLine hdrLine)))
          dataLines with
      | error e =>
        rw [hm] at h
        exact Except.noConfusion h
      | ok rows =>
        rw [hm] at h
        injection h with h2
        subst h2
        exact ⟨hdrLine, dataLines, rfl, hall, hm, rfl⟩

theorem read_csv_error_of_missing (content hdrLine : String) (dataLines : List String)
    (c : String) (hl : csvLines content = hdrLine :: dataLines)
    (hc : c ∈ columns_to_extract) (hnot : c ∉ parseLine hdrLine) :
    read_csv content =
      .error "Usecols do not match columns, columns expected but not found" := by
  have hall : (columns_to_extract.all fun c => decide (c ∈ parseLine hdrLine)) = false := by
    cases hA : columns_to_extract.all fun c => decide (c ∈ parseLine hdrLine) with
    | true => exact absurd (of_decide_eq_true (List.all_eq_true.mp hA c hc)) hnot
    | false => rfl
  simp only [read_csv, hl, hall]
  rfl

theorem readRow_error (hdr : List String) (j : Nat) (cname : String) (line : String)
    (hj : hdr[j]? = some cname)
    (hcn : cname = "driverId" ∨ cname = "truckId")
    (hbad : parseIntChars ((parseLine line).getD j "").data = none) :
    ∃ e, readRow hdr (selectedCols hdr) line = .error e := by
  have hmem : (j, cname) ∈ selectedCols hdr := by
    unfold selectedCols
    refine List.mem_filter.mpr ⟨List.mk_mem_enum_iff_getElem?.mpr hj, ?_⟩
    rcases hcn with rfl | rfl
    · show decide (("driverId" : String) ∈ columns_to_extract) = true
      decide
    · show decide (("truckId" : String) ∈ columns_to_extract) = true
      decide
  have hcell : parseCell (lookupDtype dtype_mapping cname) ((parseLine line).getD j "")
      = .error ("invalid literal for int32 column: " ++ (parseLine line).getD j "") := by
    have hdt : lookupDtype dtype_mapping cname = Dtype.int32 := by
      rcases hcn with rfl | rfl <;> rfl
    rw [hdt]
    unfold parseCell
    rw [hbad]
  by_cases hlen : hdr.length < (parseLine line).length
  · exact ⟨_, by simp only [readRow]; rw [if_pos hlen]⟩
  · obtain ⟨e2, he2⟩ := mapE_error_of_mem
      (fun p => parseCell (lookupDtype dtype_mapping p.2) ((parseLine line).getD p.1 ""))
      (j, cname) _ (selectedCols hdr) hmem hcell
    exact ⟨e2, by simp only [readRow]; rw [if_neg hlen]; exact he2⟩

theorem read_csv_error_of_bad_row (content hdrLine row : String) (dataLines : List String)
    (j : Nat) (cname : String)
    (hl : csvLines content = hdrLine :: dataLines)
    (hrow : row ∈ dataLines)
    (hj : (parseLine hdrLine)[j]? = some cname)
    (hcn : cname = "driverId" ∨ cname = "truckId")
    (hbad : parseIntChars ((parseLine row).getD j "").data = none) :
    ∃ e, read_csv content = .error e := by
  cases hall : columns_to_extract.all fun c => decide (c ∈ parseLine hdrLine) with
  | false =>
    refine ⟨"Usecols do not match columns, columns expected but not found", ?_⟩
    simp only [read_csv, hl, hall]
    rfl
  | true =>
    obtain ⟨e0, he0⟩ := readRow_error (parseLine hdrLine) j cname row hj hcn hbad
    obtain ⟨e1, he1⟩ := mapE_error_of_mem
      (readRow (parseLine hdrLine) (selectedCols (parseLine hdrLine))) row e0
      dataLines hrow he0
    refine ⟨e1, ?_⟩
    simp only [read_csv, hl]
    rw [hall, if_pos rfl, he1]

/-! The claims. -/

/-- C3: if the input path does not resolve to an existing file, the call
returns False, prints the file-not-found message (which carries the input
path), and the output file is neither created nor modified. -/
theorem c3_missing_input (fs : FS)
    (hrun : handledRun fs = true)
    (hin : lookupFile fs.files input_file = none) :
    runOk fs = false ∧
    msgFileNotFound ∈ runPrints fs ∧
    msgFileNotFound = "❌ Error: No se encontró el archivo " ++ renderPath input_file ∧
    runOutput fs = lookupFile fs.files output_file := by
  cases hE : extract_specific_columns fs with
  | error e =>
    rw [handledRun, hE] at hrun
    exact Bool.noConfusion hrun
  | ok r =>
    obtain ⟨fs1, hmk, hfiles, hcase⟩ := extract_ok_inv fs r hE
    rcases hcase with ⟨_, rfl⟩ | ⟨content, e, hc, _, _⟩ | ⟨content, df, hc, _, _⟩
    · refine ⟨?_, ?_, rfl, ?_⟩
      · rw [runOk, hE]
      · rw [runPrints, hE]
        simp
      · rw [runOutput, runFS, hE]
        show lookupFile fs1.files output_file = lookupFile fs.files output_file
        rw [hfiles]
    · rw [hin] at hc
      exact Option.noConfusion hc
    · rw [hin] at hc
      exact Option.noConfusion hc

/-- C3 witness: on the empty filesystem the input file is absent and the
run behaves as claimed. -/
theorem c3_missing_input_witness :
    handledRun fsEmpty = true ∧
    lookupFile fsEmpty.files input_file = none ∧
    (runOk fsEmpty = false ∧
     msgFileNotFound ∈ runPrints fsEmpty ∧
     msgFileNotFound = "❌ Error: No se encontró el archivo " ++ renderPath input_file ∧
     runOutput fsEmpty = lookupFile fsEmpty.files output_file) :=
  ⟨rfl, rfl, c3_missing_input fsEmpty rfl rfl⟩

/-- C9: the output directory is created before the input file is read, so
after every run that returns — including a failed run with a missing input
file — the directory files/output exists. -/
theorem c9_output_dir_exists (fs : FS) (hrun : handledRun fs = true) :
    isDir (runFS fs) output_file.dropLast = true := by
  cases hE : extract_specific_columns fs with
  | error e =>
    rw [handledRun, hE] at hrun
    exact Bool.noConfusion hrun
  | ok r =>
    obtain ⟨fs1, hmk, hfiles, hcase⟩ := extract_ok_inv fs r hE
    have hdir : isDir fs1 output_file.dropLast = true :=
      mkdirList_mem_dirs _ _ _ hmk output_file.dropLast (by decide)
    rw [runFS, hE]
    rcases hcase with ⟨_, rfl⟩ | ⟨content, e, _, _, rfl⟩ | ⟨content, df, _, _, rfl⟩
    · exact hdir
    · exact hdir
    · exact hdir

/-- C9 witness: a run on the empty filesystem fails (no input file) yet
leaves the output directory in place. -/
theorem c9_output_dir_exists_witness :
    handledRun fsEmpty = true ∧ runOk fsEmpty = false ∧
    isDir (runFS fsEmpty) output_file.dropLast = true :=
  ⟨rfl, rfl, c9_output_dir_exists fsEmpty rfl⟩

/-- C5 counterexample: the claim that no exception ever propagates out of
extract_specific_columns is false: the mkdir of line 28 runs before the
try block, so when a regular file occupies files/output the call raises an
uncaught FileExistsError. -/
theorem c5_counterexample :
    extract_specific_columns fsClash = .error "FileExistsError: files/output" ∧
    handledRun fsClash = false :=
  ⟨rfl, rfl⟩

/-- C5 (amended): every failure during the try block (read, parse, write)
is caught and surfaced as a printed message plus a False return; only the
directory-creation step of line 28, which runs before the try block, can
raise. Whenever no regular file occupies files or files/output, the call
returns normally. -/
theorem c5_handled_inside_try (fs : FS)
    (h1 : isFile fs ["files"] = false)
    (h2 : isFile fs ["files", "output"] = false) :
    handledRun fs = true := by
  obtain ⟨fs1, hmk⟩ :=
    mkdirList_ok_of_not_file (ancestors output_file.dropLast) fs (by
      intro q hq
      have ha : ancestors output_file.dropLast = [["files"], ["files", "output"]] := rfl
      rw [ha] at hq
      rcases List.mem_cons.mp hq with rfl | hq2
      · exact h1
      · rcases List.mem_cons.mp hq2 with rfl | hq3
        · exact h2
        · simp at hq3)
  have hmk2 : mkdirParents fs output_file.dropLast = .ok fs1 := hmk
  cases hin : lookupFile fs1.files input_file with
  | none => simp only [handledRun, extract_specific_columns, hmk2, hin]
  | some content =>
    cases hcsv : read_csv content with
    | error e => simp only [handledRun, extract_specific_columns, hmk2, hin, hcsv]
    | ok df => simp only [handledRun, extract_specific_columns, hmk2, hin, hcsv]

/-- C5 witness: on a fresh filesystem holding the good input, no regular
file blocks the directory path and the call returns. -/
theorem c5_handled_inside_try_witness :
    isFile fsGood ["files"] = false ∧ isFile fsGood ["files", "output"] = false ∧
    handledRun fsGood = true :=
  ⟨rfl, rfl, c5_handled_inside_try fsGood rfl rfl⟩

/-- C8: the directory-creation step is idempotent: when no regular file
occupies files or files/output it succeeds (whether or not the directories
already exist), creates the missing ancestors, touches no file, and running
it again returns the same filesystem unchanged. -/
theorem c8_mkdir_idempotent (fs : FS)
    (h1 : isFile fs ["files"] = false)
    (h2 : isFile fs ["files", "output"] = false) :
    ∃ fs2, mkdirParents fs output_file.dropLast = .ok fs2 ∧
      isDir fs2 ["files"] = true ∧
      isDir fs2 ["files", "output"] = true ∧
      fs2.files = fs.files ∧
      mkdirParents fs2 output_file.dropLast = .ok fs2 := by
  have ha : ancestors output_file.dropLast = [["files"], ["files", "output"]] := rfl
  have hnf : ∀ q ∈ ancestors output_file.dropLast, isFile fs q = false := by
    intro q hq
    rw [ha] at hq
    rcases List.mem_cons.mp hq with rfl | hq2
    · exact h1
    · rcases List.mem_cons.mp hq2 with rfl | hq3
      · exact h2
      · simp at hq3
  obtain ⟨fs2, hmk⟩ := mkdirList_ok_of_not_file (ancestors output_file.dropLast) fs hnf
  have hfiles : fs2.files = fs.files := mkdirList_files _ _ _ hmk
  have hdirs := mkdirList_mem_dirs _ _ _ hmk
  refine ⟨fs2, hmk, hdirs ["files"] (by rw [ha]; simp),
    hdirs ["files", "output"] (by rw [ha]; simp), hfiles, ?_⟩
  show mkdirList fs2 (ancestors output_file.dropLast) = .ok fs2
  apply mkdirList_id
  intro q hq
  refine ⟨hdirs q hq, ?_⟩
  rw [isFile_congr hfiles q]
  exact hnf q hq

/-- C8 witness: with the parent directory files already existing and the
output directory missing, the step succeeds, completes the chain, and is
idempotent. -/
theorem c8_mkdir_idempotent_witness :
    isDir fsParentOnly ["files"] = true ∧
    (∃ fs2, mkdirParents fsParentOnly output_file.dropLast = .ok fs2 ∧
      isDir fs2 ["files"] = true ∧
      isDir fs2 ["files", "output"] = true ∧
      fs2.files = fsParentOnly.files ∧
      mkdirParents fs2 output_file.dropLast = .ok fs2) :=
  ⟨rfl, c8_mkdir_idempotent fsParentOnly rfl rfl⟩

/-- C6: for every run that returns, the process exits 0 exactly when
extract_specific_columns returned True, and exits 1 on a handled
failure. -/
theorem c6_exit_code (fs : FS) (hrun : handledRun fs = true) :
    (main_exit fs = .ok 0 ↔ runOk fs = true) ∧
    (runOk fs = false → main_exit fs = .ok 1) := by
  cases hE : extract_specific_columns fs with
  | error e =>
    rw [handledRun, hE] at hrun
    exact Bool.noConfusion hrun
  | ok r =>
    cases hs : r.success <;> simp [main_exit, runOk, hE, hs]

/-- C6 witness: the good run exits 0, and on the empty filesystem (missing
input) the handled failure exits 1. -/
theorem c6_exit_code_witness :
    handledRun fsGood = true ∧
    ((main_exit fsGood = .ok 0 ↔ runOk fsGood = true) ∧
     (runOk fsGood = false → main_exit fsGood = .ok 1)) :=
  ⟨rfl, c6_exit_code fsGood rfl⟩

/-- C4: when the input file lacks one of the nine required columns, the
run fails with the processing-error message (pandas rejects the usecols
selection) instead of silently writing fewer columns, and the output file
is untouched. -/
theorem c4_missing_column (fs : FS) (content hdrLine : String) (dataLines : List String)
    (c : String)
    (hrun : handledRun fs = true)
    (hin : lookupFile fs.files input_file = some content)
    (hl : csvLines content = hdrLine :: dataLines)
    (hc : c ∈ columns_to_extract)
    (hnot : c ∉ parseLine hdrLine) :
    runOk fs = false ∧
    msgProcessing "Usecols do not match columns, columns expected but not found"
      ∈ runPrints fs ∧
    runOutput fs = lookupFile fs.files output_file := by
  have hcsv := read_csv_error_of_missing content hdrLine dataLines c hl hc hnot
  cases hE : extract_specific_columns fs with
  | error e =>
    rw [handledRun, hE] at hrun
    exact Bool.noConfusion hrun
  | ok r =>
    obtain ⟨fs1, hmk, hfiles, hcase⟩ := extract_ok_inv fs r hE
    rcases hcase with ⟨hnone, rfl⟩ | ⟨c2, e, hc2, hcsv2, rfl⟩ | ⟨c2, df, hc2, hcsv2, rfl⟩
    · rw [hin] at hnone
      exact Option.noConfusion hnone
    · rw [hin] at hc2
      injection hc2 with hc3
      subst hc3
      rw [hcsv] at hcsv2
      injection hcsv2 with he
      subst he
      refine ⟨?_, ?_, ?_⟩
      · rw [runOk, hE]
      · rw [runPrints, hE]
        simp
      · rw [runOutput, runFS, hE]
        show lookupFile fs1.files output_file = lookupFile fs.files output_file
        rw [hfiles]
    · rw [hin] at hc2
      injection hc2 with hc3
      subst hc3
      rw [hcsv] at hcsv2
      exact Except.noConfusion hcsv2

/-- C4 witness: the fixture input lacking driverName makes the run fail
with the processing error and leaves no output file. -/
theorem c4_missing_column_witness :
    handledRun fsNoCol = true ∧
    "driverName" ∈ columns_to_extract ∧
    "driverName" ∉ parseLine
      "driverId,truckId,eventTime,eventType,longitude,latitude,routeName,eventDate" ∧
    (runOk fsNoCol = false ∧
     msgProcessing "Usecols do not match columns, columns expected but not found"
       ∈ runPrints fsNoCol ∧
     runOutput fsNoCol = lookupFile fsNoCol.files output_file) :=
  ⟨rfl, by decide, by decide,
    c4_missing_column fsNoCol noColContent
      "driverId,truckId,eventTime,eventType,longitude,latitude,routeName,eventDate"
      ["10,200,2016-01-01 00:00:00,Normal,-94.5,39.1,R1,2016-01-01"]
      "driverName" rfl rfl rfl (by decide) (by decide)⟩

/-- C10: when some data row has an empty or non-integer value in the
driverId or truckId column (whose declared dtype is int32), the run fails
with a processing error and returns False instead of writing an output
file containing that row. -/
theorem c10_bad_int_cell (fs : FS) (content hdrLine row : String) (dataLines : List String)
    (j : Nat) (cname : String)
    (hrun : handledRun fs = true)
    (hin : lookupFile fs.files input_file = some content)
    (hl : csvLines content = hdrLine :: dataLines)
    (hrow : row ∈ dataLines)
    (hj : (parseLine hdrLine)[j]? = some cname)
    (hcn : cname = "driverId" ∨ cname = "truckId")
    (hbad : parseIntChars ((parseLine row).getD j "").data = none) :
    runOk fs = false ∧
    (∃ e, msgProcessing e ∈ runPrints fs) ∧
    runOutput fs = lookupFile fs.files output_file := by
  obtain ⟨e0, hcsv⟩ :=
    read_csv_error_of_bad_row content hdrLine row dataLines j cname hl hrow hj hcn hbad
  cases hE : extract_specific_columns fs with
  | error e =>
    rw [handledRun, hE] at hrun
    exact Bool.noConfusion hrun
  | ok r =>
    obtain ⟨fs1, hmk, hfiles, hcase⟩ := extract_ok_inv fs r hE
    rcases hcase with ⟨hnone, rfl⟩ | ⟨c2, e, hc2, hcsv2, rfl⟩ | ⟨c2, df, hc2, hcsv2, rfl⟩
    · rw [hin] at hnone
      exact Option.noConfusion hnone
    · refine ⟨?_, ⟨e, ?_⟩, ?_⟩
      · rw [runOk, hE]
      · rw [runPrints, hE]
        simp
      · rw [runOutput, runFS, hE]
        show lookupFile fs1.files output_file = lookupFile fs.files output_file
        rw [hfiles]
    · rw [hin] at hc2
      injection hc2 with hc3
      subst hc3
      rw [hcsv] at hcsv2
      exact Except.noConfusion hcsv2

/-- C10 witness: the fixture whose data row has an empty driverId cell
makes the run fail with a processing error and leaves no output file. -/
theorem c10_bad_int_cell_witness :
    handledRun fsBadInt = true ∧
    parseIntChars ((parseLine
      ",200,2016-01-01 00:00:00,Normal,-94.5,39.1,Alice,R1,2016-01-01").getD 0 "").data
      = none ∧
    (runOk fsBadInt = false ∧
     (∃ e, msgProcessing e ∈ runPrints fsBadInt) ∧
     runOutput fsBadInt = lookupFile fsBadInt.files output_file) :=
  ⟨rfl, rfl,
    c10_bad_int_cell fsBadInt badIntContent
      "driverId,truckId,eventTime,eventType,longitude,latitude,driverName,routeName,eventDate"
      ",200,2016-01-01 00:00:00,Normal,-94.5,39.1,Alice,R1,2016-01-01"
      [",200,2016-01-01 00:00:00,Normal,-94.5,39.1,Alice,R1,2016-01-01"]
      0 "driverId" rfl rfl rfl (by decide) rfl (Or.inl rfl) rfl⟩

/-- C1 counterexample: an input whose nine columns appear in a different
order succeeds but is written with the file order, so the first header
token of the output is truckId rather than driverId: the claimed fixed
column order is false. -/
theorem c1_counterexample :
    runOk fsSwap = true ∧
    runOutput fsSwap = some swapOutput ∧
    firstHeaderToken swapOutput = "truckId" ∧
    firstHeaderToken swapOutput ≠ "driverId" :=
  ⟨rfl, rfl, rfl, by decide⟩

/-- C1 (amended): for a well-formed input whose distinct header names
include the nine required columns (possibly among extras), a successful
run writes exactly those nine columns with the same row count as the
input and no index column, but in the order the columns appear in the
input file (pandas usecols does not reorder); when that order is the
fixed columns_to_extract order, the output header line is exactly the
fixed header starting with driverId. -/
theorem c1_projection (fs : FS) (content hdrLine : String) (dataLines : List String)
    (hok : runOk fs = true)
    (hin : lookupFile fs.files input_file = some content)
    (hl : csvLines content = hdrLine :: dataLines)
    (hnd : (parseLine hdrLine).Nodup) :
    ∃ df : Frame,
      read_csv content = .ok df ∧
      runOutput fs = some (to_csv df) ∧
      df.cols = (parseLine hdrLine).filter (fun c => decide (c ∈ columns_to_extract)) ∧
      df.cols.Nodup ∧
      (∀ c, c ∈ df.cols ↔ c ∈ columns_to_extract) ∧
      df.cols.length = 9 ∧
      df.rows.length = dataLines.length ∧
      (df.cols = columns_to_extract → ∃ rest, to_csv df =
        "driverId,truckId,eventTime,eventType,longitude,latitude,driverName,routeName,eventDate\n"
          ++ rest) := by
  cases hE : extract_specific_columns fs with
  | error e =>
    rw [runOk, hE] at hok
    exact Bool.noConfusion hok
  | ok r =>
    obtain ⟨fs1, hmk, hfiles, hcase⟩ := extract_ok_inv fs r hE
    rcases hcase with ⟨hnone, rfl⟩ | ⟨c2, e, hc2, hcsv2, rfl⟩ | ⟨c2, df, hc2, hcsv2, rfl⟩
    · rw [hin] at hnone
      exact Option.noConfusion hnone
    · rw [runOk, hE] at hok
      exact Bool.noConfusion hok
    · rw [hin] at hc2
      injection hc2 with hc3
      subst hc3
      obtain ⟨hdrLine2, dataLines2, hl2, hall, hrows, hcols⟩ := read_csv_ok_inv content df hcsv2
      rw [hl] at hl2
      injection hl2 with hh hd
      subst hh
      subst hd
      have hcolsF : df.cols = (parseLine hdrLine).filter
          fun c => decide (c ∈ columns_to_extract) := by
        rw [hcols, selectedCols_map_snd]
      have hmemiff : ∀ c, c ∈ df.cols ↔ c ∈ columns_to_extract := by
        intro c
        rw [hcolsF]
        constructor
        · intro hcmem
          exact of_decide_eq_true (List.mem_filter.mp hcmem).2
        · intro hcmem
          exact List.mem_filter.mpr
            ⟨of_decide_eq_true (List.all_eq_true.mp hall c hcmem), decide_eq_true hcmem⟩
      have hndc : df.cols.Nodup := by
        rw [hcolsF]
        exact hnd.filter _
      refine ⟨df, hcsv2, ?_, hcolsF, hndc, hmemiff, ?_, ?_, ?_⟩
      · rw [runOutput, runFS, hE]
        show lookupFile ((output_file, to_csv df) :: fs1.files) output_file = some (to_csv df)
        exact lookupFile_cons_self fs1.files output_file (to_csv df)
      · have hfin : df.cols.toFinset = columns_to_extract.toFinset := by
          ext c
          simp only [List.mem_toFinset]
          exact hmemiff c
        have h9 : columns_to_extract.toFinset.card = 9 := by decide
        rw [← List.toFinset_card_of_nodup hndc, hfin, h9]
      · exact mapE_length _ dataLines df.rows hrows
      · intro hfix
        refine ⟨renderLines (df.rows.map renderRow), ?_⟩
        show renderLines (joinSep "," df.cols :: df.rows.map renderRow) = _
        rw [hfix]
        show joinSep "," columns_to_extract ++ "\n" ++ renderLines (df.rows.map renderRow) = _
        rw [show joinSep "," columns_to_extract ++ "\n" =
          "driverId,truckId,eventTime,eventType,longitude,latitude,driverName,routeName,eventDate\n"
          from rfl]

/-- C1 witness: on the good fixture the run succeeds, the nine columns
come out in the fixed order with one data row, and the output header is
the fixed header. -/
theorem c1_projection_witness :
    runOk fsGood = true ∧
    ∃ df : Frame,
      read_csv goodContent = .ok df ∧
      runOutput fsGood = some (to_csv df) ∧
      df.cols = (parseLine
        "driverId,truckId,eventTime,eventType,longitude,latitude,driverName,routeName,eventDate").filter
        (fun c => decide (c ∈ columns_to_extract)) ∧
      df.cols.Nodup ∧
      (∀ c, c ∈ df.cols ↔ c ∈ columns_to_extract) ∧
      df.cols.length = 9 ∧
      df.rows.length =
        ["10,200,2016-01-01 00:00:00,Normal,-94.5,39.1,Alice,R1,2016-01-01"].length ∧
      (df.cols = columns_to_extract → ∃ rest, to_csv df =
        "driverId,truckId,eventTime,eventType,longitude,latitude,driverName,routeName,eventDate\n"
          ++ rest) :=
  ⟨rfl, c1_projection fsGood goodContent
    "driverId,truckId,eventTime,eventType,longitude,latitude,driverName,routeName,eventDate"
    ["10,200,2016-01-01 00:00:00,Normal,-94.5,39.1,Alice,R1,2016-01-01"]
    rfl rfl rfl (by decide)⟩

/-- C2 counterexample: at the specification's own example row the
latitude field of the output file reads 39.099998, not the claimed
39.100000 — the float32 dtype cannot hold 39.1 exactly. -/
theorem c2_counterexample :
    runOutput fsGood = some goodOutput ∧
    (parseLine ((csvLines goodOutput).getD 1 "")).getD 5 "" = "39.099998" ∧
    "39.099998" ≠ "39.100000" :=
  ⟨rfl, rfl, by decide⟩

/-- C2 (amended): every float32 value is rendered with exactly six digits
after the decimal point, and the text written is the correctly rounded
rendering of the binary32 value the float32 dtype stored: the example
longitude -94.5 is exactly representable and prints -94.500000, but the
example latitude 39.1 is stored as the nearest binary32
39.09999847412109375 and prints 39.099998. -/
theorem c2_six_decimals :
    (∀ f : F32, ∃ a b : String,
      renderF32 f = a ++ "." ++ b ∧ b.length = 6 ∧ ∀ ch ∈ b.data, ch.isDigit = true) ∧
    renderValue (.floatV (some (roundF32 ⟨true, 945, 1⟩))) = "-94.500000" ∧
    renderValue (.floatV (some (roundF32 ⟨false, 391, 1⟩))) = "39.099998" ∧
    runOutput fsGood = some goodOutput := by
  refine ⟨?_, rfl, rfl, rfl⟩
  intro f
  refine ⟨(if f.neg then "-" else "") ++ toString (f.n6 / 1000000),
    (⟨fixedDigits 6 (f.n6 % 1000000)⟩ : String), rfl, ?_, ?_⟩
  · exact fixedDigits_length 6 (f.n6 % 1000000)
  · intro ch hch
    exact fixedDigits_isDigit 6 (f.n6 % 1000000) ch hch

/-- C2 auxiliary witness: the general six-digit statement instantiated at
the binary32 value of 39.1. -/
theorem c2_six_decimals_witness :
    ∃ a b : String,
      renderF32 (roundF32 ⟨false, 391, 1⟩) = a ++ "." ++ b ∧ b.length = 6 ∧
        ∀ ch ∈ b.data, ch.isDigit = true :=
  c2_six_decimals.1 (roundF32 ⟨false, 391, 1⟩)

/-- C7: the run is deterministic and idempotent: rerunning on the
filesystem a successful run left behind succeeds again and finds/writes a
byte-identical output file. -/
theorem c7_rerun_identical (fs : FS) (hok : runOk fs = true) :
    runOk (runFS fs) = true ∧
    runOutput (runFS fs) = runOutput fs ∧
    ∃ c, runOutput fs = some c := by
  cases hE : extract_specific_columns fs with
  | error e =>
    rw [runOk, hE] at hok
    exact Bool.noConfusion hok
  | ok r =>
    obtain ⟨fs1, hmk, hfiles, hcase⟩ := extract_ok_inv fs r hE
    rcases hcase with ⟨hnone, rfl⟩ | ⟨c2, e, hc2, hcsv2, rfl⟩ | ⟨content, df, hc2, hcsv2, rfl⟩
    · rw [runOk, hE] at hok
      exact Bool.noConfusion hok
    · rw [runOk, hE] at hok
      exact Bool.noConfusion hok
    · have hRunFS : runFS fs = writeFile fs1 output_file (to_csv df) := by
        rw [runFS, hE]
      have hanc : ancestors output_file.dropLast = [["files"], ["files", "output"]] := rfl
      have hprops : ∀ q ∈ ancestors output_file.dropLast,
          isDir (writeFile fs1 output_file (to_csv df)) q = true ∧
          isFile (writeFile fs1 output_file (to_csv df)) q = false := by
        intro q hq
        have hdir : isDir fs1 q = true := mkdirList_mem_dirs _ _ _ hmk q hq
        have hnf : isFile fs q = false := mkdirList_not_file _ _ _ hmk q hq
        have hqne : ¬output_file = q := by
          rw [hanc] at hq
          rcases List.mem_cons.mp hq with rfl | hq2
          · decide
          · rcases List.mem_cons.mp hq2 with rfl | hq3
            · decide
            · simp at hq3
        refine ⟨hdir, ?_⟩
        rw [isFile_writeFile_ne fs1 output_file q (to_csv df) hqne,
          isFile_congr hfiles q]
        exact hnf
      have hmk2 : mkdirParents (writeFile fs1 output_file (to_csv df)) output_file.dropLast
          = .ok (writeFile fs1 output_file (to_csv df)) :=
        mkdirList_id _ _ hprops
      have hin2 : lookupFile (writeFile fs1 output_file (to_csv df)).files input_file
          = some content := by
        show lookupFile ((output_file, to_csv df) :: fs1.files) input_file = some content
        rw [lookupFile_cons_ne fs1.files output_file input_file (to_csv df) (by decide),
          hfiles]
        exact hc2
      have hE2 := extract_success_eq (writeFile fs1 output_file (to_csv df))
        (writeFile fs1 output_file (to_csv df)) content df hmk2 hin2 hcsv2
      refine ⟨?_, ?_, ⟨to_csv df, ?_⟩⟩
      · rw [hRunFS, runOk, hE2]
      · rw [hRunFS, runOutput, runFS, hE2]
        show lookupFile
          ((output_file, to_csv df) :: (writeFile fs1 output_file (to_csv df)).files)
            output_file
          = runOutput fs
        rw [lookupFile_cons_self, runOutput, hRunFS]
        show some (to_csv df)
          = lookupFile ((output_file, to_csv df) :: fs1.files) output_file
        rw [lookupFile_cons_self]
      · rw [runOutput, runFS, hE]
        show lookupFile ((output_file, to_csv df) :: fs1.files) output_file
          = some (to_csv df)
        rw [lookupFile_cons_self]

/-- C7 witness: rerunning over the filesystem left by the good run
reproduces the identical output file. -/
theorem c7_rerun_identical_witness :
    runOk fsGood = true ∧
    (runOk (runFS fsGood) = true ∧
     runOutput (runFS fsGood) = runOutput fsGood ∧
     ∃ c, runOutput fsGood = some c) :=
  ⟨rfl, c7_rerun_identical fsGood rfl⟩

end Extract
